import Mathlib

/-!
Shallow embedding of the defect classification engine of
`src/ml_defect_detector_simple.py` (class `SimpleMLDefectDetector`), the core
selected by the specification: Segmenter (`_split_into_sentences`), Pattern
Classifier (`_rule_based_classify`), Scorer & Merger (`_calculate_rule_confidence`,
`_determine_severity`, `_combine_results`), secondary signal
(`_ml_classify_sentence`, `_get_primary_defect_type`) and the entry point
`detect_defects`.

Modelling choices:
* Python strings are `List Char`; `str.strip()` is `strip` (drop whitespace at
  both ends), `str.lower()` is `toLowerStr` (ASCII case folding, which agrees
  with Python on all ASCII text the patterns can match).
* Every regex in `defect_patterns` is of the restricted shape
  `literal`, `literal[cs]?` or `literal[abc]literal`, so `re.search(pat, s)`
  reduces to "s contains one of finitely many literal substrings":
  an optional character class `[s]?` can match the empty string, hence
  `crack[s]?` searches iff `crack` occurs; a mandatory class `[ion|ive]`
  matches exactly one character drawn from the listed characters, hence
  `corros[ion|ive]` searches iff one of `corrosi corroso corrosn corros|
  corrosv corrose` occurs.  Each rule is therefore embedded as its list of
  literal alternatives and matching is substring containment (`containsSub`).
* The Hugging Face sentiment pipeline is an external collaborator; it is
  embedded as an oracle `Classifier : Str → Option MLRaw` where `none` models
  both "the pipeline raised" (caught by the `except` in
  `_ml_classify_sentence`) and an empty result list, and `MLRaw` carries the
  `label`/`score` of `result[0]`.  `detect_defects` takes `Option Classifier`:
  `none` models `ml_available = False` / `classifier is None`.
* Floats are embedded as rationals; the constants 0.7, 0.15, … are exact in
  the source and all arithmetic on them is exact, so `ℚ` is faithful.
* Python functions that cannot raise are total Lean functions; the absence of
  exceptions in the embedded fragment is totality of the embedding.
-/

namespace DefectDetector

/-- Python strings, embedded as lists of characters. -/
abbrev Str := List Char

/-- Whitespace test used by `str.strip()`. -/
def isWS (c : Char) : Bool := c.isWhitespace

/-- Python `str.strip()`: remove whitespace from both ends. -/
def strip (s : Str) : Str :=
  ((s.dropWhile isWS).reverse.dropWhile isWS).reverse

/-- Python `str.lower()` (ASCII). -/
def toLowerStr (s : Str) : Str := s.map Char.toLower

/-- Python `pat in s` / `re.search(literal, s)`: `pat` occurs as a contiguous
substring of `s`. -/
def containsSub : Str → Str → Bool
  | [], pat => pat.isEmpty
  | s@(_ :: rest), pat => pat.isPrefixOf s || containsSub rest pat

/-- One embedded regex: the finite list of literal alternatives it searches
for (see the header comment); it matches a string iff some alternative is a
substring. -/
abbrev Pat := List Str

/-- Regex search of an embedded pattern. -/
def matchesPat (pat : Pat) (s : Str) : Bool := pat.any (fun a => containsSub s a)

/-- The fixed defect taxonomy `self.defect_categories`. -/
inductive Category
  | Cracks
  | Damp
  | Corrosion
  | Mold
  | Structural
  | Electrical
  | Plumbing
deriving DecidableEq, Repr

/-- Severity labels returned by `_determine_severity`. -/
inductive Severity
  | Low
  | Medium
  | High
deriving DecidableEq, Repr

/-- The `detection_method` strings of the findings built in `_combine_results`. -/
inductive DetectionMethod
  | rule_based
  | ml_only
  | hybrid_ml_rule
deriving DecidableEq, Repr

/-- The dict `self.defect_patterns`, in source order; each regex is embedded
as its list of literal alternatives (see header comment). -/
def defectPatterns : List (Category × List Pat) :=
  [(Category.Cracks,
     [["crack".data], ["fissure".data], ["split".data], ["fracture".data],
      ["settlement-crack".data, "settlement crack".data],
      ["hairline crack".data], ["structural crack".data]]),
   (Category.Damp,
     [["damp".data], ["moist".data], ["wet".data], ["humid".data],
      ["water damage".data], ["condensation".data], ["moisture buildup".data]]),
   (Category.Corrosion,
     [["rust".data],
      ["corrosi".data, "corroso".data, "corrosn".data, "corros|".data,
       "corrosv".data, "corrose".data],
      ["oxida".data, "oxidt".data, "oxidi".data, "oxido".data, "oxidn".data,
       "oxid|".data, "oxidz".data, "oxide".data, "oxidd".data],
      ["corroded".data], ["deterioration".data], ["metal damage".data]]),
   (Category.Mold,
     [["mold".data], ["mould".data], ["fungus".data], ["mildew".data],
      ["fungal".data], ["spores".data], ["black spots".data]]),
   (Category.Structural,
     [["structural".data], ["foundation".data], ["beam".data], ["support".data],
      ["deflection".data], ["settlement".data],
      ["load-bearing".data, "load bearing".data],
      ["structural stress".data], ["structural damage".data]]),
   (Category.Electrical,
     [["electrical".data], ["wiring".data], ["circuit".data], ["outlet".data],
      ["panel".data], ["GFCI".data], ["electrical fault".data],
      ["electrical safety".data], ["power".data], ["voltage".data],
      ["electrical hazard".data]]),
   (Category.Plumbing,
     [["plumbing".data], ["pipe".data], ["leak".data], ["drain".data],
      ["water pressure".data], ["joint connection".data], ["blockage".data],
      ["water system".data], ["drainage system".data]])]

/-- The dict `specificity_boosts` of `_calculate_rule_confidence`, in source
order (every key is a literal regex). -/
def specificityBoosts : List (Str × ℚ) :=
  [("structural crack".data, 2/10),
   ("water damage".data, 2/10),
   ("electrical hazard".data, 25/100),
   ("foundation".data, 15/100),
   ("safety hazard".data, 2/10)]

/-- The dicts appended by `_rule_based_classify`. -/
structure RuleResult where
  type : Category
  confidence : ℚ
  method : Str
deriving DecidableEq, Repr

/-- The dict returned by `_ml_classify_sentence`. -/
structure MLResult where
  type : Category
  confidence : ℚ
  method : Str
deriving DecidableEq, Repr

/-- The first element `result[0]` of the external sentiment pipeline's output. -/
structure MLRaw where
  label : Str
  score : ℚ
deriving DecidableEq, Repr

/-- The external sentiment pipeline: `none` models a raised exception (caught
in `_ml_classify_sentence`) or an empty result list. -/
abbrev Classifier := Str → Option MLRaw

/-- The dicts appended by `_combine_results` and returned by `detect_defects`. -/
structure Finding where
  type : Category
  sentence : Str
  confidence : ℚ
  severity : Severity
  detection_method : DetectionMethod
deriving DecidableEq, Repr

/-- Method `_calculate_rule_confidence(pattern, sentence)`: base 0.7, plus the
boost of the first `specificity_boosts` entry found in `sentence` (the loop
breaks after one boost), capped by `min(0.9, ·)`.  The `pattern` argument is
unused in the source body and is kept only for signature fidelity. -/
def calculateRuleConfidence (_pattern : Pat) (sentence : Str) : ℚ :=
  let base : ℚ := 7/10
  let boosted : ℚ :=
    match specificityBoosts.find? (fun pb => containsSub sentence pb.1) with
    | some pb => base + pb.2
    | none => base
  min (9/10) boosted

/-- The body of the outer loop of `_rule_based_classify` for one
`(defect_type, patterns)` entry: the inner loop with `break` tries the
patterns in order and appends one result for the first that matches. -/
def classifyCategory (lower : Str) (cp : Category × List Pat) : Option RuleResult :=
  match cp.2.find? (fun pat => matchesPat pat lower) with
  | some pat => some ⟨cp.1, calculateRuleConfidence pat lower, "rule_based".data⟩
  | none => none

/-- Method `_rule_based_classify(sentence)`. -/
def ruleBasedClassify (sentence : Str) : List RuleResult :=
  defectPatterns.filterMap (classifyCategory (toLowerStr sentence))

/-- Method `_get_primary_defect_type(sentence)`: the first category in
taxonomy order with a matching pattern. -/
def getPrimaryDefectType (sentence : Str) : Option Category :=
  let lower := toLowerStr sentence
  (defectPatterns.find? (fun cp => cp.2.any (fun pat => matchesPat pat lower))).map
    Prod.fst

/-- Method `_ml_classify_sentence(sentence)`: `None` without a classifier; on
a `NEGATIVE` label with a rule-recognized type, confidence is
`min(0.95, score * 1.2)`, otherwise `None`. -/
def mlClassifySentence (clf? : Option Classifier) (sentence : Str) : Option MLResult :=
  match clf? with
  | none => none
  | some clf =>
    match clf sentence with
    | none => none
    | some raw =>
      if raw.label = "NEGATIVE".data then
        match getPrimaryDefectType sentence with
        | some t =>
          some ⟨t, min (95/100) (raw.score * (12/10)), "ml_enhanced".data⟩
        | none => none
      else none

/-- The high-severity keyword list of `_determine_severity`. -/
def highSeverityKeywords : List Str :=
  ["immediate".data, "urgent".data, "critical".data, "dangerous".data,
   "hazard".data, "safety".data, "structural damage".data, "major".data,
   "severe".data]

/-- The medium-severity keyword list of `_determine_severity`. -/
def mediumSeverityKeywords : List Str :=
  ["significant".data, "moderate".data, "attention".data, "monitor".data,
   "repair".data, "maintenance".data]

/-- Method `_determine_severity(sentence)`: first high keyword wins, then
medium, default `Low`. -/
def determineSeverity (sentence : Str) : Severity :=
  let lower := toLowerStr sentence
  if highSeverityKeywords.any (fun k => containsSub lower k) then Severity.High
  else if mediumSeverityKeywords.any (fun k => containsSub lower k) then
    Severity.Medium
  else Severity.Low

/-- Method `_combine_results(ml_results, rule_results, sentence)`.  Python
truthiness: `ml_results` is a dict or `None`, `rule_results` is falsy exactly
when empty, which the four-way match below reproduces. -/
def combineResults (mlResults : Option MLResult) (ruleResults : List RuleResult)
    (sentence : Str) : List Finding :=
  match mlResults, ruleResults with
  | some m, r :: rs =>
    (r :: rs).map (fun rr =>
      if rr.type = m.type then
        { type := rr.type, sentence := sentence,
          confidence := min (95/100) ((m.confidence + rr.confidence) / 2 + 1/10),
          severity := determineSeverity sentence,
          detection_method := DetectionMethod.hybrid_ml_rule }
      else
        { type := rr.type, sentence := sentence,
          confidence := rr.confidence,
          severity := determineSeverity sentence,
          detection_method := DetectionMethod.rule_based })
  | some m, [] =>
    [{ type := m.type, sentence := sentence, confidence := m.confidence,
       severity := determineSeverity sentence,
       detection_method := DetectionMethod.ml_only }]
  | none, rules =>
    rules.map (fun rr =>
      { type := rr.type, sentence := sentence, confidence := rr.confidence,
        severity := determineSeverity sentence,
        detection_method := DetectionMethod.rule_based })

/-- Sentence-terminal punctuation of the split regex `[.!?]+`. -/
def isTerm (c : Char) : Bool := c == '.' || c == '!' || c == '?'

/-- Recursive worker for `re.split(r'[.!?]+', text)`: `prevTerm` records
whether the previous character was terminal punctuation, so that a maximal
run of delimiters ends exactly one piece. -/
def splitPunctAux : Str → Bool → List Str
  | [], _ => [[]]
  | c :: rest, prevTerm =>
    if isTerm c then
      if prevTerm then splitPunctAux rest true
      else [] :: splitPunctAux rest true
    else
      match splitPunctAux rest false with
      | [] => [[c]]
      | u :: us => (c :: u) :: us

/-- Python `re.split(r'[.!?]+', text)`: split on maximal runs of terminal
punctuation (adjacent delimiters act as one; leading/trailing delimiters
produce empty pieces, exactly as `re.split` does). -/
def splitPunct (s : Str) : List Str := splitPunctAux s false

/-- Method `_split_into_sentences(text)`: split, strip, keep the pieces whose
stripped length exceeds 15. -/
def splitIntoSentences (text : Str) : List Str :=
  ((splitPunct text).map strip).filter (fun s => 15 < s.length)

/-- Method `detect_defects(text)`: the whole-document guard
`if not text or len(text.strip()) < 20`, then the per-sentence loop with its
(redundant) `len(sentence.strip()) < 15` skip, ML classification when a
classifier is present (`self.ml_available and self.classifier`), rule-based
classification, and result combination. -/
def detectDefects (clf? : Option Classifier) (text : Str) : List Finding :=
  if text = [] ∨ (strip text).length < 20 then []
  else
    (splitIntoSentences text).flatMap (fun sentence =>
      if (strip sentence).length < 15 then []
      else
        combineResults (mlClassifySentence clf? sentence)
          (ruleBasedClassify sentence) sentence)

/-- Scenario A input of the spec (claim C9). -/
def scenarioA : Str := "The foundation shows visible cracks along the east wall.".data

/-- The single sentence the Segmenter produces from `scenarioA`. -/
def scenarioASentence : Str :=
  "The foundation shows visible cracks along the east wall".data

/-- A sentence whose only matching boost phrase (`foundation`) belongs to the
Structural category while the sentence also yields a Damp match (claim C5). -/
def crossBoostSentence : Str := "damp found near the foundation wall".data

/-- A concrete sentence used for the hybrid-merge witness (claim C6). -/
def hybridSentence : Str := "the basement shows damp everywhere".data

/-- A concrete sentence used for the disagreement evaluation (claim C7). -/
def disagreeSentence : Str := "the wall shows cracks".data

/-- The first finding `detect_defects` returns on `scenarioA` (used as the
concrete witness for the confidence-bounds theorem). -/
def findingCracksA : Finding :=
  ⟨Category.Cracks, scenarioASentence, 17/20, Severity.Low,
   DetectionMethod.rule_based⟩

section Verification

/- Batteries marks the rational arithmetic irreducible for the elaborator;
the concrete evaluations below need it unfolded (the kernel unfolds it
regardless). -/
attribute [local semireducible] Rat.mul Rat.inv Rat.add Rat.sub Rat.ofScientific

/-- Counting elements through `filterMap`: if `f a = some b` with `p b` forces
`q a`, the `p`-count of the image is at most the `q`-count of the source. -/
theorem countP_le_of_filterMap {α β : Type} (f : α → Option β) (p : β → Bool)
    (q : α → Bool) (l : List α)
    (h : ∀ a b, f a = some b → p b = true → q a = true) :
    (l.filterMap f).countP p ≤ l.countP q := by
  induction l with
  | nil => simp
  | cons a t ih =>
    rw [List.countP_cons]
    cases hfa : f a with
    | none =>
      rw [List.filterMap_cons_none hfa]
      split <;> omega
    | some b =>
      rw [List.filterMap_cons_some hfa, List.countP_cons]
      by_cases hpb : p b = true
      · have hqa := h a b hfa hpb
        simp only [hpb, hqa, if_true]
        omega
      · simp only [if_neg hpb]
        split <;> omega

/-- Every result of `classifyCategory` carries the category of the taxonomy
entry it came from. -/
theorem classifyCategory_type_eq {lower : Str} {cp : Category × List Pat}
    {r : RuleResult} (h : classifyCategory lower cp = some r) : r.type = cp.1 := by
  unfold classifyCategory at h
  split at h
  · cases h; rfl
  · cases h

/-- C2: for every text unit the rule-based classifier yields at most one raw
match per category, because within each category the patterns are tried in
their fixed order and only the first match is recorded (`break`). -/
theorem rule_based_at_most_one_per_category (sentence : Str) (cat : Category) :
    ((ruleBasedClassify sentence).countP (fun r => r.type == cat)) ≤ 1 := by
  have h := countP_le_of_filterMap (classifyCategory (toLowerStr sentence))
    (fun r => r.type == cat) (fun cp => cp.1 == cat) defectPatterns
    (fun a b hfa hpb => by
      have hb := classifyCategory_type_eq hfa
      show (a.1 == cat) = true
      rw [← hb]
      exact hpb)
  refine le_trans h ?_
  cases cat <;> decide

/-- C9 counterexample: on Scenario A's input the pipeline returns two
findings, not one (the word `foundation` also matches the Structural
patterns). -/
theorem scenario_a_two_findings_cex :
    (detectDefects none scenarioA).length = 2
    ∧ (detectDefects none scenarioA).length ≠ 1 := by
  decide

/-- C9 amended: on Scenario A's input with the secondary signal disabled the
pipeline returns exactly two findings, category Cracks then Structural (in
taxonomy order), both with the original-cased sentence, confidence 0.85 (the
`foundation` specificity boost), severity Low and detection method
rule-based. -/
theorem scenario_a_amended :
    detectDefects none scenarioA =
      [⟨Category.Cracks, scenarioASentence, 17/20, Severity.Low,
        DetectionMethod.rule_based⟩,
       ⟨Category.Structural, scenarioASentence, 17/20, Severity.Low,
        DetectionMethod.rule_based⟩] := by
  decide

/-- C10: any input whose stripped length is below 20 yields no findings, a
whole-document guard independent of the per-unit threshold. -/
theorem document_length_guard (clf? : Option Classifier) (text : Str)
    (h : (strip text).length < 20) :
    detectDefects clf? text = [] := by
  unfold detectDefects
  rw [if_pos (Or.inr h)]

/-- Witness for C10: `severe crack found` has 18 characters, contains defect
keywords and exceeds the per-unit threshold, yet yields no findings. -/
theorem document_length_guard_witness :
    detectDefects none "severe crack found".data = [] :=
  document_length_guard none _ (by decide)

/-- C1: the top-level detection is total and returns a (possibly empty) list
of findings: the empty string segments to no units and yields no findings,
whitespace-only input yields no findings, and whenever segmentation produces
zero qualifying units the result is the empty list (totality of the
embedding models absence of exceptions). -/
theorem detect_defects_never_fails (clf? : Option Classifier) (text : Str) :
    splitIntoSentences ([] : Str) = []
    ∧ detectDefects clf? [] = []
    ∧ ((strip text).length = 0 → detectDefects clf? text = [])
    ∧ (splitIntoSentences text = [] → detectDefects clf? text = []) := by
  refine ⟨by decide, by simp [detectDefects], fun h => ?_, fun h => ?_⟩
  · unfold detectDefects
    rw [if_pos (Or.inr (by omega))]
  · unfold detectDefects
    split
    · rfl
    · rw [h, List.flatMap_nil]

/-- Witness for C1: whitespace-only input, and a ≥20-character input all of
whose sentences are too short to qualify, both yield the empty list. -/
theorem detect_defects_never_fails_witness :
    detectDefects none "  \t\n  ".data = []
    ∧ detectDefects none "aaa. bbb. ccc. ddd. eee.".data = [] :=
  ⟨(detect_defects_never_fails none _).2.2.1 (by decide),
   (detect_defects_never_fails none _).2.2.2 (by decide)⟩

/-- C4: severity scans the lower-cased unit in fixed priority order: any high
keyword forces High, otherwise any medium keyword forces Medium, otherwise
Low; in particular a unit with both a high and a medium keyword is High. -/
theorem determine_severity_priority (sentence : Str) :
    (highSeverityKeywords.any (fun k => containsSub (toLowerStr sentence) k) = true →
      determineSeverity sentence = Severity.High)
    ∧ (highSeverityKeywords.any (fun k => containsSub (toLowerStr sentence) k) = false →
       mediumSeverityKeywords.any (fun k => containsSub (toLowerStr sentence) k) = true →
       determineSeverity sentence = Severity.Medium)
    ∧ (highSeverityKeywords.any (fun k => containsSub (toLowerStr sentence) k) = false →
       mediumSeverityKeywords.any (fun k => containsSub (toLowerStr sentence) k) = false →
       determineSeverity sentence = Severity.Low) :=
  ⟨fun h1 => by simp [determineSeverity, h1],
   fun h1 h2 => by simp [determineSeverity, h1, h2],
   fun h1 h2 => by simp [determineSeverity, h1, h2]⟩

/-- Witness for C4: a unit containing both the high keyword `critical` and
the medium keyword `significant` gets severity High. -/
theorem determine_severity_priority_witness :
    mediumSeverityKeywords.any
      (fun k => containsSub (toLowerStr "critical and significant damp".data) k) = true
    ∧ determineSeverity "critical and significant damp".data = Severity.High :=
  ⟨by decide, (determine_severity_priority _).1 (by decide)⟩

/-- C8: every unit the Segmenter returns has trimmed length above the
threshold, and when every split piece of the text trims below the threshold,
segmentation yields zero units and the whole pipeline yields zero findings. -/
theorem segmenter_excludes_short_units (clf? : Option Classifier) (text : Str) :
    (∀ u ∈ splitIntoSentences text, 15 < u.length)
    ∧ ((∀ u ∈ splitPunct text, (strip u).length < 15) →
        splitIntoSentences text = [] ∧ detectDefects clf? text = []) := by
  constructor
  · intro u hu
    have h := (List.mem_filter.mp hu).2
    simpa using h
  · intro h
    have hs : splitIntoSentences text = [] := by
      unfold splitIntoSentences
      rw [List.filter_eq_nil_iff]
      intro a ha
      rw [List.mem_map] at ha
      obtain ⟨u, hu, rfl⟩ := ha
      have := h u hu
      simp
      omega
    refine ⟨hs, ?_⟩
    unfold detectDefects
    split
    · rfl
    · rw [hs, List.flatMap_nil]

/-- Witness for C8: the spec's Scenario C fragments (`123`, `Page 4`, `ok`)
are all filtered out, and the pipeline returns no findings. -/
theorem segmenter_excludes_short_units_witness :
    splitIntoSentences "123. Page 4. ok!".data = []
    ∧ detectDefects none "123. Page 4. ok!".data = [] :=
  (segmenter_excludes_short_units none _).2 (by decide)

/-- C5 counterexample: in `damp found near the foundation wall` the Damp
match is boosted to 0.85 by the phrase `foundation`, which belongs to the
Structural category, while the sentence contains no Damp-category boost
phrase (`water damage`); so a phrase of a different category does boost the
match, contradicting the claim. -/
theorem specificity_boost_cross_category_cex :
    ruleBasedClassify crossBoostSentence =
      [⟨Category.Damp, 17/20, "rule_based".data⟩,
       ⟨Category.Structural, 17/20, "rule_based".data⟩]
    ∧ containsSub (toLowerStr crossBoostSentence) "water damage".data = false
    ∧ containsSub (toLowerStr crossBoostSentence) "foundation".data = true
    ∧ (17/20 : ℚ) ≠ 7/10 := by
  decide

/-- C5 amended: a rule match's confidence is determined by the sentence
alone, regardless of the match's category: base 0.7 plus the boost of the
first specificity phrase contained in the lower-cased sentence (whatever
category that phrase belongs to), capped at 0.9. -/
theorem specificity_boost_sentence_determined (sentence : Str) (r : RuleResult)
    (hr : r ∈ ruleBasedClassify sentence) :
    r.confidence =
      match specificityBoosts.find?
          (fun pb => containsSub (toLowerStr sentence) pb.1) with
      | some pb => min (9/10 : ℚ) (7/10 + pb.2)
      | none => 7/10 := by
  obtain ⟨cp, hcp, hsome⟩ := List.mem_filterMap.mp hr
  unfold classifyCategory at hsome
  split at hsome
  case h_1 pat hpat =>
    cases hsome
    show calculateRuleConfidence pat (toLowerStr sentence) = _
    unfold calculateRuleConfidence
    cases hfind : specificityBoosts.find?
        (fun pb => containsSub (toLowerStr sentence) pb.1) with
    | none =>
      simp only [hfind]
      norm_num
    | some pb =>
      simp only [hfind]
  case h_2 => cases hsome

/-- Witness for C5 amended: the Damp match of the counterexample sentence
has exactly the sentence-determined confidence. -/
theorem specificity_boost_sentence_determined_witness :
    (⟨Category.Damp, 17/20, "rule_based".data⟩ : RuleResult).confidence =
      match specificityBoosts.find?
          (fun pb => containsSub (toLowerStr crossBoostSentence) pb.1) with
      | some pb => min (9/10 : ℚ) (7/10 + pb.2)
      | none => 7/10 :=
  specificity_boost_sentence_determined crossBoostSentence _ (by decide)

/-- C6: when the secondary signal's category equals the rule match's
category, the two are merged into a single hybrid finding whose confidence is
the average of the two confidences plus the 0.1 agreement bonus, capped at
0.95. -/
theorem hybrid_merge_agreement (m : MLResult) (r : RuleResult) (sentence : Str)
    (h : r.type = m.type) :
    combineResults (some m) [r] sentence =
      [{ type := r.type, sentence := sentence,
         confidence := min (95/100) ((m.confidence + r.confidence) / 2 + 1/10),
         severity := determineSeverity sentence,
         detection_method := DetectionMethod.hybrid_ml_rule }] := by
  simp [combineResults, h]

/-- Witness for C6: a secondary confidence of 0.8 agreeing with a rule
confidence of 0.7 merges into one hybrid finding with confidence 0.85. -/
theorem hybrid_merge_agreement_witness :
    combineResults (some ⟨Category.Damp, 4/5, "ml_enhanced".data⟩)
        [⟨Category.Damp, 7/10, "rule_based".data⟩] hybridSentence =
      [{ type := Category.Damp, sentence := hybridSentence, confidence := 17/20,
         severity := determineSeverity hybridSentence,
         detection_method := DetectionMethod.hybrid_ml_rule }] := by
  rw [hybrid_merge_agreement ⟨Category.Damp, 4/5, "ml_enhanced".data⟩
    ⟨Category.Damp, 7/10, "rule_based".data⟩ hybridSentence rfl]
  decide

/-- C7 evaluation at the failing input: with a secondary signal of category
Damp (confidence 0.8) and a single rule match of category Cracks (confidence
0.7), the merger emits only the rule-based Cracks finding — the secondary
signal's Damp finding is discarded, not emitted as an extra `ml_only`
finding (the source comment `Keep both if they disagree` notwithstanding). -/
theorem disagreement_discards_secondary :
    combineResults (some ⟨Category.Damp, 4/5, "ml_enhanced".data⟩)
        [⟨Category.Cracks, 7/10, "rule_based".data⟩] disagreeSentence =
      [{ type := Category.Cracks, sentence := disagreeSentence,
         confidence := 7/10, severity := Severity.Low,
         detection_method := DetectionMethod.rule_based }]
    ∧ Category.Damp ∉
        (combineResults (some ⟨Category.Damp, 4/5, "ml_enhanced".data⟩)
          [⟨Category.Cracks, 7/10, "rule_based".data⟩] disagreeSentence).map
          Finding.type := by
  decide

/-- Rule confidences always lie in [0.7, 0.9]: the base is 0.7, every boost
in the table is nonnegative, and the result is capped at 0.9. -/
theorem calc_rule_confidence_bounds (pat : Pat) (sentence : Str) :
    7/10 ≤ calculateRuleConfidence pat sentence
    ∧ calculateRuleConfidence pat sentence ≤ 9/10 := by
  unfold calculateRuleConfidence
  cases hfind : specificityBoosts.find? (fun pb => containsSub sentence pb.1) with
  | none =>
    simp only [hfind]
    norm_num
  | some pb =>
    have hmem := List.mem_of_find?_eq_some hfind
    have hpb : (0:ℚ) ≤ pb.2 := by
      simp only [specificityBoosts, List.mem_cons, List.not_mem_nil, or_false] at hmem
      rcases hmem with rfl | rfl | rfl | rfl | rfl <;> norm_num
    simp only [hfind]
    constructor
    · exact le_min (by norm_num) (by linarith)
    · exact min_le_left _ _

/-- Every result of the rule-based classifier has confidence in [0.7, 0.9]. -/
theorem rule_result_confidence_bounds (sentence : Str) (r : RuleResult)
    (hr : r ∈ ruleBasedClassify sentence) :
    7/10 ≤ r.confidence ∧ r.confidence ≤ 9/10 := by
  obtain ⟨cp, hcp, hsome⟩ := List.mem_filterMap.mp hr
  unfold classifyCategory at hsome
  split at hsome
  case h_1 pat hpat =>
    cases hsome
    exact calc_rule_confidence_bounds pat _
  case h_2 => cases hsome

/-- Every secondary-signal result has confidence in [0, 0.95], provided the
external classifier's score is nonnegative. -/
theorem ml_result_confidence_bounds (clf? : Option Classifier) (sentence : Str)
    (m : MLResult) (hm : mlClassifySentence clf? sentence = some m)
    (hsc : ∀ c raw, clf? = some c → c sentence = some raw → 0 ≤ raw.score) :
    0 ≤ m.confidence ∧ m.confidence ≤ 95/100 := by
  unfold mlClassifySentence at hm
  cases clf? with
  | none => cases hm
  | some c =>
    dsimp only at hm
    cases hraw : c sentence with
    | none => rw [hraw] at hm; cases hm
    | some raw =>
      rw [hraw] at hm
      dsimp only at hm
      have hscore : (0:ℚ) ≤ raw.score := hsc c raw rfl hraw
      by_cases hlabel : raw.label = "NEGATIVE".data
      · rw [if_pos hlabel] at hm
        cases hprim : getPrimaryDefectType sentence with
        | none => rw [hprim] at hm; cases hm
        | some t =>
          rw [hprim] at hm
          cases hm
          exact ⟨le_min (by norm_num) (mul_nonneg hscore (by norm_num)),
            min_le_left _ _⟩
      · rw [if_neg hlabel] at hm
        cases hm

/-- Every finding `_combine_results` builds has confidence in [0, 0.95],
given the bounds established for its two inputs. -/
theorem combine_results_confidence_bounds (mlResults : Option MLResult)
    (ruleResults : List RuleResult) (sentence : Str)
    (hml : ∀ m, mlResults = some m → 0 ≤ m.confidence ∧ m.confidence ≤ 95/100)
    (hrule : ∀ r ∈ ruleResults, 7/10 ≤ r.confidence ∧ r.confidence ≤ 9/10) :
    ∀ f ∈ combineResults mlResults ruleResults sentence,
      0 ≤ f.confidence ∧ f.confidence ≤ 95/100 := by
  intro f hf
  cases mlResults with
  | none =>
    simp only [combineResults, List.mem_map] at hf
    obtain ⟨r, hrm, rfl⟩ := hf
    have h2 := hrule r hrm
    exact ⟨by linarith [h2.1], by linarith [h2.2]⟩
  | some m =>
    have h1 := hml m rfl
    cases ruleResults with
    | nil =>
      simp only [combineResults, List.mem_singleton] at hf
      subst hf
      exact h1
    | cons r rs =>
      simp only [combineResults, List.mem_map] at hf
      obtain ⟨rr, hrm, rfl⟩ := hf
      have h2 := hrule rr hrm
      by_cases hty : rr.type = m.type
      · simp only [hty, if_true]
        refine ⟨le_min (by norm_num) (by linarith [h1.1, h2.1]), min_le_left _ _⟩
      · simp only [hty, if_false]
        exact ⟨by linarith [h2.1], by linarith [h2.2]⟩

/-- C3: assuming the external classifier returns nonnegative scores, every
finding of `detect_defects` has confidence within [0, 0.95], across all three
detection methods. -/
theorem finding_confidence_bounds (clf? : Option Classifier) (text : Str)
    (hsc : ∀ c s raw, clf? = some c → c s = some raw → 0 ≤ raw.score) :
    ∀ f ∈ detectDefects clf? text, 0 ≤ f.confidence ∧ f.confidence ≤ 95/100 := by
  intro f hf
  unfold detectDefects at hf
  split at hf
  · cases hf
  · rw [List.mem_flatMap] at hf
    obtain ⟨s, hs, hf⟩ := hf
    split at hf
    · cases hf
    · exact combine_results_confidence_bounds _ _ _
        (fun m hm => ml_result_confidence_bounds clf? s m hm
          (fun c raw hc hraw => hsc c s raw hc hraw))
        (fun r hr => rule_result_confidence_bounds s r hr) f hf

/-- Witness for C3: the first Scenario A finding lies within the bounds. -/
theorem finding_confidence_bounds_witness :
    0 ≤ findingCracksA.confidence ∧ findingCracksA.confidence ≤ 95/100 :=
  finding_confidence_bounds none scenarioA
    (fun c _ _ hc _ => nomatch hc) findingCracksA (by decide)

end Verification

end DefectDetector
